import Mathlib

/-!
Embedding of the reconciliation and signing-policy code of certificate-controller.

Shallow embedding of `pkg/signer` and `pkg/controller`.

Conventions of the embedding
* A `time.Duration` is an `int64` count of nanoseconds: durations are `Int`s, and
  every arithmetic operator the source applies to durations goes through `wrapInt64`.
* A `time.Time` is an instant: an `Int` counting nanoseconds from the zero `Time`;
  `t.Add(d)` is `t + d` and `t.Before(u)` is `t < u` (the range limits of the
  library representation are not part of the embedding).
* Go `error` values are `Error`s; a run-time panic is the third outcome of `Result`.
* Calls that leave the repository (PEM and X.509 codecs, randomness, the clock, the
  resource store, the informer cache) are fields of `Env`.
-/

/-! ## Shared data model -/

/-- Byte strings (`[]byte`). -/
abbrev Bytes := List Nat

/-- Two's-complement reduction of an integer to the `int64` range. -/
def wrapInt64 (x : Int) : Int := (x + 2 ^ 63) % 2 ^ 64 - 2 ^ 63

/-- Membership in the `int64` range. -/
def isInt64 (x : Int) : Prop := -(2 : Int) ^ 63 ≤ x ∧ x < 2 ^ 63

/-- Membership in the `int32` range. -/
def isInt32 (x : Int) : Prop := -(2 : Int) ^ 31 ≤ x ∧ x < 2 ^ 31

namespace time

def Nanosecond : Int := 1
def Second : Int := 1000000000
def Minute : Int := 60 * Second
def Hour : Int := 60 * Minute

end time

/-- Go `error` values met in the repository. -/
inductive Error where
  /-- Built by `errors.New` / `fmt.Errorf`: the format string and the rendered arguments. -/
  | errorf (format : String) (args : List String)
  /-- An API status error of the resource store, with its status reason. -/
  | status (reason : String)
  /-- Any other error handed back by a library call. -/
  | library (msg : String)
deriving DecidableEq, Repr

/-- Outcome of a call: a value, a Go `error`, or a run-time panic. -/
inductive Result (α : Type) where
  | ok (a : α)
  | err (e : Error)
  | panic (msg : String)
deriving DecidableEq, Repr

deriving instance DecidableEq for Except

namespace errors

/-- Model of `k8s.io/apimachinery/pkg/api/errors.IsConflict`. -/
def IsConflict : Error → Bool
  | .status reason => reason == "Conflict"
  | _ => false

/-- Model of `k8s.io/apimachinery/pkg/api/errors.IsNotFound`. -/
def IsNotFound : Error → Bool
  | .status reason => reason == "NotFound"
  | _ => false

end errors

namespace capi

/-- The string type `k8s.io/api/certificates/v1.KeyUsage`. -/
abbrev KeyUsage := String

def UsageSigning : KeyUsage := "signing"
def UsageDigitalSignature : KeyUsage := "digital signature"
def UsageContentCommitment : KeyUsage := "content commitment"
def UsageKeyEncipherment : KeyUsage := "key encipherment"
def UsageKeyAgreement : KeyUsage := "key agreement"
def UsageDataEncipherment : KeyUsage := "data encipherment"
def UsageCertSign : KeyUsage := "cert sign"
def UsageCRLSign : KeyUsage := "crl sign"
def UsageEncipherOnly : KeyUsage := "encipher only"
def UsageDecipherOnly : KeyUsage := "decipher only"
def UsageAny : KeyUsage := "any"
def UsageServerAuth : KeyUsage := "server auth"
def UsageClientAuth : KeyUsage := "client auth"
def UsageCodeSigning : KeyUsage := "code signing"
def UsageEmailProtection : KeyUsage := "email protection"
def UsageSMIME : KeyUsage := "s/mime"
def UsageIPsecEndSystem : KeyUsage := "ipsec end system"
def UsageIPsecTunnel : KeyUsage := "ipsec tunnel"
def UsageIPsecUser : KeyUsage := "ipsec user"
def UsageTimestamping : KeyUsage := "timestamping"
def UsageOCSPSigning : KeyUsage := "ocsp signing"
def UsageMicrosoftSGC : KeyUsage := "microsoft sgc"
def UsageNetscapeSGC : KeyUsage := "netscape sgc"

/-- The string type `RequestConditionType`. -/
abbrev RequestConditionType := String

def CertificateApproved : RequestConditionType := "Approved"
def CertificateDenied : RequestConditionType := "Denied"
def CertificateFailed : RequestConditionType := "Failed"

structure CertificateSigningRequestCondition where
  Type_ : RequestConditionType
  Status : String
deriving DecidableEq, Repr

structure CertificateSigningRequestSpec where
  Request : Bytes
  SignerName : String
  ExpirationSeconds : Option Int
  Usages : List KeyUsage
deriving DecidableEq, Repr

structure CertificateSigningRequestStatus where
  Conditions : List CertificateSigningRequestCondition
  Certificate : Bytes
deriving DecidableEq, Repr

structure CertificateSigningRequest where
  Name : String
  Spec : CertificateSigningRequestSpec
  Status : CertificateSigningRequestStatus
deriving DecidableEq, Repr

end capi

namespace x509

/-- Bit flags of `crypto/x509.KeyUsage`. -/
def KeyUsageDigitalSignature : Nat := 1
def KeyUsageContentCommitment : Nat := 2
def KeyUsageKeyEncipherment : Nat := 4
def KeyUsageDataEncipherment : Nat := 8
def KeyUsageKeyAgreement : Nat := 16
def KeyUsageCertSign : Nat := 32
def KeyUsageCRLSign : Nat := 64
def KeyUsageEncipherOnly : Nat := 128
def KeyUsageDecipherOnly : Nat := 256

/-- Enumeration values of `crypto/x509.ExtKeyUsage`. -/
def ExtKeyUsageAny : Nat := 0
def ExtKeyUsageServerAuth : Nat := 1
def ExtKeyUsageClientAuth : Nat := 2
def ExtKeyUsageCodeSigning : Nat := 3
def ExtKeyUsageEmailProtection : Nat := 4
def ExtKeyUsageIPSECEndSystem : Nat := 5
def ExtKeyUsageIPSECTunnel : Nat := 6
def ExtKeyUsageIPSECUser : Nat := 7
def ExtKeyUsageTimeStamping : Nat := 8
def ExtKeyUsageOCSPSigning : Nat := 9
def ExtKeyUsageMicrosoftServerGatedCrypto : Nat := 10
def ExtKeyUsageNetscapeServerGatedCrypto : Nat := 11

/-- The fields of `x509.CertificateRequest` the repository reads. -/
structure CertificateRequest where
  Subject : String
  DNSNames : List String
  IPAddresses : List String
  EmailAddresses : List String
  URIs : List String
  PublicKeyAlgorithm : Nat
  PublicKey : Bytes
  Extensions : List Bytes
  ExtraExtensions : List Bytes
deriving DecidableEq, Repr

/-- The fields of `x509.Certificate` the repository reads or writes. -/
structure Certificate where
  SerialNumber : Nat
  Subject : String
  DNSNames : List String
  IPAddresses : List String
  PublicKeyAlgorithm : Nat
  PublicKey : Bytes
  Extensions : List Bytes
  ExtraExtensions : List Bytes
  KeyUsage : Nat
  ExtKeyUsage : List Nat
  BasicConstraintsValid : Bool
  IsCA : Bool
  NotBefore : Int
  NotAfter : Int
deriving DecidableEq, Repr

end x509

namespace pem

/-- A decoded PEM block (`encoding/pem.Block`). -/
structure Block where
  Type_ : String
  Bytes : Bytes
deriving DecidableEq, Repr

end pem

/-- A private key usable as `crypto.Signer`. -/
structure PrivateKey where
  material : Bytes
deriving DecidableEq, Repr

/-- Order in which `for k := range m` visits the keys of a Go map: unspecified, but
every key exactly once. -/
structure MapOrder where
  range : List Nat → List Nat
  perm : ∀ keys, (range keys).Perm keys

/-- The calls that leave the repository. -/
structure Env where
  /-- Call of `encoding/pem.Decode`: the first block found, if any, and the remaining input. -/
  pemDecode : Bytes → Option pem.Block × Bytes
  /-- Call of `x509.ParseCertificateRequest`. -/
  parseCertificateRequest : Bytes → Except Error x509.CertificateRequest
  /-- Call of `(*x509.CertificateRequest).CheckSignature`: the error, if any. -/
  checkSignature : x509.CertificateRequest → Option Error
  /-- Call of `crypto/rand.Int(rand.Reader, max)`. -/
  randInt : Nat → Except Error Nat
  /-- Reading of `time.Now()`. -/
  timeNow : Int
  /-- Iteration order of the extended-key-usage set. -/
  mapOrder : MapOrder
  /-- Call of `x509.CreateCertificate(rand.Reader, tmpl, parent, pub, priv)`. -/
  createCertificate : x509.Certificate → x509.Certificate → Bytes → Option PrivateKey →
    Except Error Bytes
  /-- Call of `pem.EncodeToMemory`. -/
  pemEncode : pem.Block → Bytes
  /-- Call of `csrLister.Get(key)`: the cached object or an error. -/
  listerGet : String → Except Error capi.CertificateSigningRequest
  /-- Call of `CertificateSigningRequests().UpdateStatus`: the error of the write, if any. -/
  updateStatus : capi.CertificateSigningRequest → Option Error
  /-- Call of `os.ReadFile`. -/
  readFile : String → Except Error Bytes
  /-- Call of `cert.ParseCertsPEM`. -/
  parseCertsPEM : Bytes → Except Error (List x509.Certificate)
  /-- Call of `keyutil.ParsePrivateKeyPEM` followed by the assertion to `crypto.Signer`:
  `none` is a key that does not implement it. -/
  parsePrivateKeyPEM : Bytes → Except Error (Option PrivateKey)
  /-- Call of `rest.InClusterConfig`. -/
  inClusterConfig : Except Error String
  /-- Call of `clientcmd.BuildConfigFromFlags` with an empty master URL. -/
  buildConfigFromFlags : String → Except Error String
  /-- Call of `kubernetes.NewForConfig`: the client, named by its configuration. -/
  newForConfig : String → Except Error String

/-! ## Package `signer` -/

namespace signer

def defaultCSRDuration : Int := wrapInt64 (wrapInt64 (time.Hour * 24) * 365)

/-- The limit `1 << 128` of serial numbers. -/
def serialNumberLimit : Nat := 2 ^ 128

def keyUsageDict (usage : capi.KeyUsage) : Option Nat :=
  if usage = capi.UsageSigning then some x509.KeyUsageDigitalSignature
  else if usage = capi.UsageDigitalSignature then some x509.KeyUsageDigitalSignature
  else if usage = capi.UsageContentCommitment then some x509.KeyUsageContentCommitment
  else if usage = capi.UsageKeyEncipherment then some x509.KeyUsageKeyEncipherment
  else if usage = capi.UsageKeyAgreement then some x509.KeyUsageKeyAgreement
  else if usage = capi.UsageDataEncipherment then some x509.KeyUsageDataEncipherment
  else if usage = capi.UsageCertSign then some x509.KeyUsageCertSign
  else if usage = capi.UsageCRLSign then some x509.KeyUsageCRLSign
  else if usage = capi.UsageEncipherOnly then some x509.KeyUsageEncipherOnly
  else if usage = capi.UsageDecipherOnly then some x509.KeyUsageDecipherOnly
  else none

def extKeyUsageDict (usage : capi.KeyUsage) : Option Nat :=
  if usage = capi.UsageAny then some x509.ExtKeyUsageAny
  else if usage = capi.UsageServerAuth then some x509.ExtKeyUsageServerAuth
  else if usage = capi.UsageClientAuth then some x509.ExtKeyUsageClientAuth
  else if usage = capi.UsageCodeSigning then some x509.ExtKeyUsageCodeSigning
  else if usage = capi.UsageEmailProtection then some x509.ExtKeyUsageEmailProtection
  else if usage = capi.UsageSMIME then some x509.ExtKeyUsageEmailProtection
  else if usage = capi.UsageIPsecEndSystem then some x509.ExtKeyUsageIPSECEndSystem
  else if usage = capi.UsageIPsecTunnel then some x509.ExtKeyUsageIPSECTunnel
  else if usage = capi.UsageIPsecUser then some x509.ExtKeyUsageIPSECUser
  else if usage = capi.UsageTimestamping then some x509.ExtKeyUsageTimeStamping
  else if usage = capi.UsageOCSPSigning then some x509.ExtKeyUsageOCSPSigning
  else if usage = capi.UsageMicrosoftSGC then some x509.ExtKeyUsageMicrosoftServerGatedCrypto
  else if usage = capi.UsageNetscapeSGC then some x509.ExtKeyUsageNetscapeServerGatedCrypto
  else none

/-- Loop state of `keyUsagesFromStrings`: the accumulated bit mask, the set of
extended usages (keys of the map), and the unrecognized values in input order. -/
structure UsageAcc where
  keyUsage : Nat
  extKeyUsages : List Nat
  unrecognized : List capi.KeyUsage
deriving DecidableEq, Repr

/-- One iteration of the loop over `usages`. -/
def usageStep (acc : UsageAcc) (usage : capi.KeyUsage) : UsageAcc :=
  match keyUsageDict usage with
  | some val => { acc with keyUsage := acc.keyUsage ||| val }
  | none =>
    match extKeyUsageDict usage with
    | some val =>
      { acc with extKeyUsages := if val ∈ acc.extKeyUsages then acc.extKeyUsages
                                 else val :: acc.extKeyUsages }
    | none => { acc with unrecognized := acc.unrecognized ++ [usage] }

/-- The result of `sort.Sort` on a `sortedExtKeyUsage`, whose `Less` is `<`. -/
def sortExtKeyUsage (s : List Nat) : List Nat := s.insertionSort (fun a b => a ≤ b)

def keyUsagesFromStrings (order : MapOrder) (usages : List capi.KeyUsage) :
    Except Error (Nat × List Nat) :=
  let acc := usages.foldl usageStep { keyUsage := 0, extKeyUsages := [], unrecognized := [] }
  let sorted := sortExtKeyUsage (order.range acc.extKeyUsages)
  if acc.unrecognized.length > 0 then
    .error (.errorf "unrecognized usage values: %q" acc.unrecognized)
  else
    .ok (acc.keyUsage, sorted)

structure PermissiveSigningPolicy where
  TTL : Int
  Usages : List capi.KeyUsage
  Backdate : Int
  Short : Int
  /-- The stubbed clock; `none` is the nil function value. -/
  Now : Option (Unit → Int)

/-- The current time `apply` works with: `p.Now()` when the field is set, `time.Now()`
otherwise. -/
def PermissiveSigningPolicy.now (p : PermissiveSigningPolicy) (timeNow : Int) : Int :=
  match p.Now with
  | some f => f ()
  | none => timeNow

/-- The method `apply`: the template after the call (it is mutated in place, also when an
error is returned after the validity window was written) and the returned error. -/
def PermissiveSigningPolicy.apply (p : PermissiveSigningPolicy) (timeNow : Int)
    (order : MapOrder) (tmpl : x509.Certificate) (signerNotAfter : Int) :
    x509.Certificate × Option Error :=
  let now : Int := p.now timeNow
  let ttl := p.TTL
  match keyUsagesFromStrings order p.Usages with
  | .error e => (tmpl, some e)
  | .ok (usage, extUsages) =>
    let tmpl := { tmpl with
      KeyUsage := usage, ExtKeyUsage := extUsages,
      ExtraExtensions := [], Extensions := [],
      BasicConstraintsValid := true, IsCA := false }
    let tmpl := { tmpl with NotBefore := now + wrapInt64 (-p.Backdate) }
    let tmpl :=
      if ttl < p.Short then { tmpl with NotAfter := now + ttl }
      else { tmpl with NotAfter := now + wrapInt64 (ttl - p.Backdate) }
    let tmpl :=
      if ¬ (tmpl.NotAfter < signerNotAfter) then { tmpl with NotAfter := signerNotAfter }
      else tmpl
    if ¬ (tmpl.NotBefore < signerNotAfter) then
      (tmpl, some (.errorf "the signer has expired: NotAfter=%v" [toString signerNotAfter]))
    else if ¬ (now < signerNotAfter) then
      (tmpl, some (.errorf
        "refusing to sign a certificate that expired in the past: NotAfter=%v"
        [toString signerNotAfter]))
    else (tmpl, none)

/-- The fields of `CustomerSigner` that `Sign` reads; the pointer and the interface
value may be nil. -/
structure CustomerSigner where
  keyPem : Bytes
  certPem : Bytes
  certificate : Option x509.Certificate
  privateKey : Option PrivateKey
deriving DecidableEq, Repr

/-- The method `duration`; `none` is the nil pointer. -/
def CustomerSigner.duration (_cs : CustomerSigner) (expirationSeconds : Option Int) : Int :=
  match expirationSeconds with
  | none => defaultCSRDuration
  | some s =>
    let min : Int := wrapInt64 (10 * time.Minute)
    let requestedDuration : Int := wrapInt64 (s * time.Second)
    if requestedDuration > defaultCSRDuration then defaultCSRDuration
    else if requestedDuration < min then min
    else requestedDuration

/-- The method `Sign`. A nil `cs.certificate` is dereferenced when the argument
`cs.certificate.NotAfter` of `apply` is evaluated. -/
def CustomerSigner.Sign (env : Env) (cs : CustomerSigner)
    (certificateRequest : x509.CertificateRequest) (usages : List capi.KeyUsage)
    (expirationSeconds : Option Int) : Result Bytes :=
  match env.randInt serialNumberLimit with
  | .error err => .err err
  | .ok serialNumber =>
    let tmpl : x509.Certificate := {
      SerialNumber := serialNumber
      Subject := certificateRequest.Subject
      DNSNames := certificateRequest.DNSNames
      IPAddresses := certificateRequest.IPAddresses
      PublicKeyAlgorithm := certificateRequest.PublicKeyAlgorithm
      PublicKey := certificateRequest.PublicKey
      Extensions := certificateRequest.Extensions
      ExtraExtensions := certificateRequest.ExtraExtensions
      KeyUsage := 0
      ExtKeyUsage := []
      BasicConstraintsValid := false
      IsCA := false
      NotBefore := 0
      NotAfter := 0 }
    let policy : PermissiveSigningPolicy := {
      TTL := cs.duration expirationSeconds
      Usages := usages
      Backdate := wrapInt64 (5 * time.Minute)
      Short := wrapInt64 (8 * time.Hour)
      Now := some (fun _ => env.timeNow) }
    match cs.certificate with
    | none => .panic "invalid memory address or nil pointer dereference"
    | some caCert =>
      match policy.apply env.timeNow env.mapOrder tmpl caCert.NotAfter with
      | (_, some err) => .err err
      | (tmpl, none) =>
        match env.createCertificate tmpl caCert certificateRequest.PublicKey cs.privateKey with
        | .error err => .err err
        | .ok cert => .ok cert

end signer

/-! ## Package `options` -/

namespace options

structure CertificateControllerOptions where
  SigningCertFile : String
  SigningKeyFile : String
  KubeConfig : String
deriving DecidableEq, Repr

end options

namespace signer

def NewCustomerSigner (env : Env) (opts : options.CertificateControllerOptions) :
    Except Error CustomerSigner :=
  match env.readFile opts.SigningKeyFile with
  | .error err => .error err
  | .ok keyPem =>
    match env.readFile opts.SigningCertFile with
    | .error err => .error err
    | .ok certPem =>
      match env.parseCertsPEM certPem with
      | .error err => .error err
      | .ok certs =>
        match certs with
        | [cert0] =>
          match env.parsePrivateKeyPEM keyPem with
          | .error err => .error err
          | .ok none =>
            .error (.errorf "error reading CA key file %q: key did not implement crypto.Signer"
              [opts.SigningKeyFile])
          | .ok (some priv) =>
            .ok { keyPem := keyPem, certPem := certPem, certificate := some cert0,
                  privateKey := some priv }
        | _ =>
          .error (.errorf "error reading CA cert file %q: expected 1 certificate, found %d"
            [opts.SigningCertFile, toString certs.length])

end signer

/-! ## Package `controller` -/

namespace controller

def signerName : String := "cms.io/app-serving"

def appServingKeyUsages : List capi.KeyUsage :=
  [capi.UsageDigitalSignature, capi.UsageKeyEncipherment, capi.UsageServerAuth]

/-- Calls observed while one work item is processed, in program order. Log output is
not recorded. -/
inductive Event where
  | listerGet (key : String)
  | parseCSR (pemBytes : Bytes)
  | checkSignature (req : x509.CertificateRequest)
  | validateAppServingCSR (req : x509.CertificateRequest)
  | sign (req : x509.CertificateRequest)
  | updateStatus (csr : capi.CertificateSigningRequest)
  | queueAddAfter (key : String) (delay : Int)
  | queueAddRateLimited (key : String)
  | queueForget (key : String)
  | queueDone (key : String)
deriving DecidableEq, Repr

/-- Calls on the work queue. -/
def Event.isQueueCall : Event → Bool
  | .queueAddAfter _ _ => true
  | .queueAddRateLimited _ => true
  | .queueForget _ => true
  | .queueDone _ => true
  | _ => false

/-- Writes to the resource store. -/
def Event.isStoreWrite : Event → Bool
  | .updateStatus _ => true
  | _ => false

/-- The fields of `CertificateController` set by the constructor; `client` is nil until
`setClient` succeeds. The queue, informer and lister are reached through `Env`. -/
structure CertificateController where
  client : Option String
  signer : signer.CustomerSigner
deriving DecidableEq, Repr

def parseCSR (env : Env) (pemBytes : Bytes) : Except Error x509.CertificateRequest :=
  match (env.pemDecode pemBytes).1 with
  | none => .error (.errorf "PEM block type must be CERTIFICATE REQUEST" [])
  | some block =>
    if block.Type_ ≠ "CERTIFICATE REQUEST" then
      .error (.errorf "PEM block type must be CERTIFICATE REQUEST" [])
    else
      match env.parseCertificateRequest block.Bytes with
      | .error err => .error err
      | .ok csr => .ok csr

def container : String → List String → Bool
  | _, [] => false
  | slice, item :: rest => if item = slice then true else container slice rest

/-- The loop of `validateAppServingCSR` over `usages`: the error of the first usage
outside `appServingKeyUsages`. -/
def validateUsagesLoop : List capi.KeyUsage → Option Error
  | [] => none
  | usage :: rest =>
    if !container usage appServingKeyUsages then
      some (.errorf ("permitted key usages - must not include key usages beyond " ++
        "['digital signature', 'key encipherment', 'server auth']") [])
    else validateUsagesLoop rest

def validateAppServingCSR (req : x509.CertificateRequest) (usages : List capi.KeyUsage) :
    Option Error :=
  if !container capi.UsageServerAuth usages then
    some (.errorf "permitted key usages - must include ['server auth']" [])
  else
    match validateUsagesLoop usages with
    | some err => some err
    | none =>
      if req.DNSNames.length = 0 ∧ req.IPAddresses.length = 0 then
        some (.errorf "DNS or IP subjectAltName is required" [])
      else if req.EmailAddresses.length > 0 then
        some (.errorf "Email subjectAltName are not allowed" [])
      else if req.URIs.length > 0 then
        some (.errorf "URI subjectAltName are not allowed" [])
      else none

/-- The loop of `isCertificateRequestApproved`: the flags `(approved, denied)`. -/
def approvalFlags (flags : Bool × Bool) (c : capi.CertificateSigningRequestCondition) :
    Bool × Bool :=
  let approved := if c.Type_ = capi.CertificateApproved then true else flags.1
  let denied := if c.Type_ = capi.CertificateDenied then true else flags.2
  (approved, denied)

def isCertificateRequestApproved (csr : capi.CertificateSigningRequest) : Bool :=
  let flags := csr.Status.Conditions.foldl approvalFlags (false, false)
  flags.1 && !flags.2

/-- The loop of `hasTrueCondition` over the remaining conditions. -/
def hasTrueConditionLoop (conditionType : capi.RequestConditionType) :
    List capi.CertificateSigningRequestCondition → Bool
  | [] => false
  | c :: rest => if c.Type_ = conditionType then true else hasTrueConditionLoop conditionType rest

def hasTrueCondition (csr : capi.CertificateSigningRequest)
    (conditionType : capi.RequestConditionType) : Bool :=
  hasTrueConditionLoop conditionType csr.Status.Conditions

/-- The method `handler`: its outcome and the calls it made. -/
def handler (env : Env) (cc : CertificateController) (csr : capi.CertificateSigningRequest) :
    Result Unit × List Event :=
  if !isCertificateRequestApproved csr || hasTrueCondition csr capi.CertificateFailed then
    (.ok (), [])
  else if csr.Spec.SignerName ≠ signerName then
    (.ok (), [])
  else
    match parseCSR env csr.Spec.Request with
    | .error err => (.err err, [.parseCSR csr.Spec.Request])
    | .ok certificateRequest =>
      match env.checkSignature certificateRequest with
      | some err =>
        (.err err, [.parseCSR csr.Spec.Request, .checkSignature certificateRequest])
      | none =>
        match validateAppServingCSR certificateRequest csr.Spec.Usages with
        | some err =>
          (.err err, [.parseCSR csr.Spec.Request, .checkSignature certificateRequest,
            .validateAppServingCSR certificateRequest])
        | none =>
          match cc.signer.Sign env certificateRequest csr.Spec.Usages
              csr.Spec.ExpirationSeconds with
          | .panic msg =>
            (.panic msg, [.parseCSR csr.Spec.Request, .checkSignature certificateRequest,
              .validateAppServingCSR certificateRequest, .sign certificateRequest])
          | .err err =>
            (.err err, [.parseCSR csr.Spec.Request, .checkSignature certificateRequest,
              .validateAppServingCSR certificateRequest, .sign certificateRequest])
          | .ok certificate =>
            let csr := { csr with Status := { csr.Status with
              Certificate := env.pemEncode { Type_ := "CERTIFICATE", Bytes := certificate } } }
            let calls := [.parseCSR csr.Spec.Request, .checkSignature certificateRequest,
              .validateAppServingCSR certificateRequest, .sign certificateRequest,
              .updateStatus csr]
            match env.updateStatus csr with
            | some err => (.err err, calls)
            | none => (.ok (), calls)

/-- The method `sync`: its outcome and the calls it made. -/
def sync (env : Env) (cc : CertificateController) (key : String) : Result Unit × List Event :=
  match env.listerGet key with
  | .error err =>
    if errors.IsNotFound err then (.ok (), [.listerGet key])
    else (.err err, [.listerGet key])
  | .ok csr =>
    if csr.Status.Certificate.length > 0 then (.ok (), [.listerGet key])
    else
      let csr := csr
      let (res, calls) := handler env cc csr
      (res, .listerGet key :: calls)

/-- The method `processNextItem`, given what `queue.Get()` returned: the returned
boolean (or the panic that unwinds through it) and the calls made. The deferred
`queue.Done(key)` runs last on every path that dequeued a key. -/
def processNextItem (env : Env) (cc : CertificateController) (got : String × Bool) :
    Result Bool × List Event :=
  let (key, quit) := got
  if quit then (.ok false, [])
  else
    let (res, calls) := sync env cc key
    match res with
    | .err err =>
      if errors.IsConflict err then
        (.ok true, calls ++ [.queueAddAfter key time.Second, .queueDone key])
      else
        (.ok true, calls ++ [.queueAddRateLimited key, .queueDone key])
    | .panic msg => (.panic msg, calls ++ [.queueDone key])
    | .ok () => (.ok true, calls ++ [.queueForget key, .queueDone key])

/-- The method `setClient`: the controller after the call and the returned error. -/
def setClient (env : Env) (cc : CertificateController) (kubeconfig : String) :
    CertificateController × Option Error :=
  let config := if kubeconfig = "" then env.inClusterConfig
    else env.buildConfigFromFlags kubeconfig
  match config with
  | .error err => (cc, some err)
  | .ok config =>
    match env.newForConfig config with
    | .error err => (cc, some err)
    | .ok client => ({ cc with client := some client }, none)

/-- The constructor `NewCertificateController`. The struct literal sets only `queue`, so
`signer` starts as the zero `CustomerSigner`; the informer wiring that follows
`setClient` assigns `csrInformer` and `csrLister` and leaves `signer` untouched. -/
def NewCertificateController (env : Env) (opts : options.CertificateControllerOptions) :
    Except Error CertificateController :=
  let cc : CertificateController := {
    client := none
    signer := { keyPem := [], certPem := [], certificate := none, privateKey := none } }
  match setClient env cc opts.KubeConfig with
  | (_, some err) => .error err
  | (cc, none) => .ok cc

/-! ### The resync period

`rand.Float64()` returns a `float64` in [0, 1). Every `float64` is a rational number, so
a draw is a `ℚ`, and the two `float64` operations applied to it are embedded exactly:
the sum with 1 lies in [1, 2], where the `float64` values are the multiples of 2^-52,
and is rounded to the nearest of them, ties to even; the conversion to `int64`
discards the fraction. -/

namespace float64

/-- Rounding of a rational to the nearest integer, ties to the even one. -/
def roundTiesToEven (q : ℚ) : Int :=
  let f : Int := ⌊q⌋
  if q - f < 1 / 2 then f
  else if q - f > 1 / 2 then f + 1
  else if f % 2 = 0 then f else f + 1

/-- The `float64` sum `x + 1` for a `float64` `x` in [0, 1): the exact sum rounded to the
nearest multiple of 2^-52, ties to the one with an even significand. -/
def addOne (x : ℚ) : ℚ := (roundTiesToEven ((x + 1) * 2 ^ 52) : ℚ) / 2 ^ 52

/-- The conversion `int64(x)` of a `float64` inside the `int64` range: the fraction is
discarded (truncation towards zero). -/
def toInt64 (x : ℚ) : Int := if 0 ≤ x then ⌊x⌋ else ⌈x⌉

end float64

/-- The resync period `NewCertificateController` hands to the informer factory, given
the value `draw` that `rand.Float64()` returned:
`factor := rand.Float64() + 1` and
`resyncPeriod := time.Duration(12 * time.Hour * time.Duration(factor))`. -/
def resyncPeriod (draw : ℚ) : Int :=
  let factor := float64.addOne draw
  wrapInt64 (wrapInt64 (12 * time.Hour) * float64.toInt64 factor)

end controller

/-! ## Concrete inputs at which the definitions are evaluated -/

namespace Example

/-- A map whose keys are visited in the order kept by the embedding. -/
def insertionOrder : MapOrder := ⟨id, fun _ => List.Perm.refl _⟩

/-- A map whose keys are visited in the opposite order. -/
def reverseOrder : MapOrder := ⟨List.reverse, fun keys => List.reverse_perm keys⟩

/-- The zero `x509.Certificate`. -/
def template : x509.Certificate := {
  SerialNumber := 0, Subject := "", DNSNames := [], IPAddresses := [],
  PublicKeyAlgorithm := 0, PublicKey := [], Extensions := [], ExtraExtensions := [],
  KeyUsage := 0, ExtKeyUsage := [], BasicConstraintsValid := false, IsCA := false,
  NotBefore := 0, NotAfter := 0 }

/-- An instant in the year 2026, in nanoseconds from the zero `Time`. -/
def now2026 : Int := 63900000000000000000

/-- The policy `Sign` builds for a requested duration of one hour. -/
def servingPolicy : signer.PermissiveSigningPolicy := {
  TTL := 3600000000000
  Usages := ["digital signature", "key encipherment", "server auth"]
  Backdate := 300000000000
  Short := 28800000000000
  Now := none }

/-- The policy `Sign` builds when no duration is requested: the TTL is 365 days. -/
def defaultPolicy : signer.PermissiveSigningPolicy := {
  TTL := 31536000000000000
  Usages := ["digital signature", "key encipherment", "server auth"]
  Backdate := 300000000000
  Short := 28800000000000
  Now := none }

/-- A parsed request for one DNS name. -/
def request : x509.CertificateRequest := {
  Subject := "CN=app", DNSNames := ["app.example.com"], IPAddresses := [],
  EmailAddresses := [], URIs := [], PublicKeyAlgorithm := 1, PublicKey := [4],
  Extensions := [], ExtraExtensions := [] }

/-- A CA certificate that expires ten years after `now2026`. -/
def caCertificate : x509.Certificate :=
  { template with Subject := "CN=ca", IsCA := true, BasicConstraintsValid := true,
                  NotBefore := now2026 - 31536000000000000,
                  NotAfter := now2026 + 315360000000000000 }

/-- What `pem.Decode` returns on inputs written with one byte per encoded block: byte 1
stands for the encoding of a "CERTIFICATE REQUEST" block, byte 2 for that of a
"CERTIFICATE" block; the block is returned with the input that follows it, and an input
that starts with neither holds no block. -/
def pemDecode : Bytes → Option pem.Block × Bytes
  | 1 :: rest => (some { Type_ := "CERTIFICATE REQUEST", Bytes := [48] }, rest)
  | 2 :: rest => (some { Type_ := "CERTIFICATE", Bytes := [48] }, rest)
  | other => (none, other)

/-- An approved request for the signer of this controller, not yet issued. -/
def pendingCSR : capi.CertificateSigningRequest := {
  Name := "pending"
  Spec := { Request := [1], SignerName := "cms.io/app-serving",
            ExpirationSeconds := some 3600,
            Usages := ["digital signature", "key encipherment", "server auth"] }
  Status := { Conditions := [{ Type_ := "Approved", Status := "True" }], Certificate := [] } }

/-- The same request once a certificate was written to its status. -/
def issuedCSR : capi.CertificateSigningRequest :=
  { pendingCSR with
      Name := "issued"
      Status := { pendingCSR.Status with Certificate := [2, 48, 7] } }

/-- The same request for another signer. -/
def foreignCSR : capi.CertificateSigningRequest :=
  { pendingCSR with
      Name := "foreign"
      Spec := { pendingCSR.Spec with SignerName := "kubernetes.io/kubelet-serving" } }

/-- A world in which every outside call succeeds: the cache holds `pendingCSR`,
`issuedCSR` and `foreignCSR`, the files "ca.crt" and "ca.key" hold one certificate and
one signing key, and the store accepts the write. -/
def env : Env := {
  pemDecode := pemDecode
  parseCertificateRequest := fun der =>
    if der = [48] then .ok request else .error (.library "asn1: syntax error")
  checkSignature := fun _ => none
  randInt := fun _ => .ok 7
  timeNow := now2026
  mapOrder := insertionOrder
  createCertificate := fun tmpl _ _ priv =>
    match priv with
    | some _ => .ok [48, tmpl.SerialNumber]
    | none => .error (.library "x509: certificate private key does not implement crypto.Signer")
  pemEncode := fun block => 2 :: block.Bytes
  listerGet := fun key =>
    if key = "pending" then .ok pendingCSR
    else if key = "issued" then .ok issuedCSR
    else if key = "foreign" then .ok foreignCSR
    else .error (.status "NotFound")
  updateStatus := fun _ => none
  readFile := fun path =>
    if path = "ca.crt" then .ok [2]
    else if path = "ca.key" then .ok [3]
    else .error (.library "open: no such file or directory")
  parseCertsPEM := fun data =>
    if data = [2] then .ok [caCertificate]
    else .error (.library "data does not contain any valid RSA or ECDSA certificates")
  parsePrivateKeyPEM := fun data =>
    if data = [3] then .ok (some { material := [9] })
    else .error (.library "data does not contain a valid RSA or ECDSA private key")
  inClusterConfig := .ok "in-cluster"
  buildConfigFromFlags := fun path => .ok path
  newForConfig := fun config => .ok config }

/-- The same world with a store that answers the write with a version conflict. -/
def conflictEnv : Env := { env with updateStatus := fun _ => some (.status "Conflict") }

/-- Options naming both CA files, for a controller running in the cluster. -/
def opts : options.CertificateControllerOptions :=
  { SigningCertFile := "ca.crt", SigningKeyFile := "ca.key", KubeConfig := "" }

/-- A controller whose signer holds the CA material of "ca.crt" and "ca.key". -/
def loadedController : controller.CertificateController := {
  client := some "in-cluster"
  signer := { keyPem := [3], certPem := [2], certificate := some caCertificate,
              privateKey := some { material := [9] } } }

end Example

/-! ## Properties of `validateAppServingCSR` -/

namespace controller

theorem container_eq_true_iff (slice : String) (slices : List String) :
    container slice slices = true ↔ slice ∈ slices := by
  induction slices with
  | nil => simp [container]
  | cons item rest ih =>
    by_cases h : item = slice
    · simp [container, h]
    · have h' : ¬ slice = item := fun e => h e.symm
      simp [container, h, h', ih]

theorem validateUsagesLoop_eq_none_iff (usages : List capi.KeyUsage) :
    validateUsagesLoop usages = none ↔ ∀ u ∈ usages, u ∈ appServingKeyUsages := by
  induction usages with
  | nil => simp [validateUsagesLoop]
  | cons usage rest ih =>
    by_cases h : container usage appServingKeyUsages = true
    · have hm := (container_eq_true_iff _ _).1 h
      simp [validateUsagesLoop, h, ih, hm]
    · have hm : usage ∉ appServingKeyUsages := fun hm => h ((container_eq_true_iff _ _).2 hm)
      simp [validateUsagesLoop, h, hm]

theorem mem_appServingKeyUsages (u : capi.KeyUsage) :
    u ∈ appServingKeyUsages ↔
      u = "digital signature" ∨ u = "key encipherment" ∨ u = "server auth" := by
  simp [appServingKeyUsages, capi.UsageDigitalSignature, capi.UsageKeyEncipherment,
    capi.UsageServerAuth]

/-- C1: `validateAppServingCSR req usages` returns no error exactly when `usages`
contains "server auth", every usage is one of "digital signature", "key encipherment",
"server auth", the request has a DNS name or an IP address, and it has neither an email
nor a URI SAN; for the empty usage list it returns an error. -/
theorem validateAppServingCSR_eq_none_iff (req : x509.CertificateRequest)
    (usages : List capi.KeyUsage) :
    (validateAppServingCSR req usages = none ↔
      ("server auth" ∈ usages ∧
        (∀ u ∈ usages,
          u = "digital signature" ∨ u = "key encipherment" ∨ u = "server auth") ∧
        (req.DNSNames ≠ [] ∨ req.IPAddresses ≠ []) ∧
        req.EmailAddresses = [] ∧ req.URIs = [])) ∧
    validateAppServingCSR req [] ≠ none := by
  constructor
  · by_cases hs : container capi.UsageServerAuth usages = true
    · have hs' : "server auth" ∈ usages := (container_eq_true_iff _ _).1 hs
      cases hl : validateUsagesLoop usages with
      | some err =>
        have hn : ¬ ∀ u ∈ usages, u ∈ appServingKeyUsages := by
          rw [← validateUsagesLoop_eq_none_iff, hl]; simp
        have hn' : ¬ ∀ u ∈ usages,
            u = "digital signature" ∨ u = "key encipherment" ∨ u = "server auth" := by
          intro h
          exact hn fun u hu => (mem_appServingKeyUsages u).2 (h u hu)
        simp [validateAppServingCSR, hs, hl, hn']
      | none =>
        have hall : ∀ u ∈ usages,
            u = "digital signature" ∨ u = "key encipherment" ∨ u = "server auth" :=
          fun u hu => (mem_appServingKeyUsages u).1
            ((validateUsagesLoop_eq_none_iff usages).1 hl u hu)
        simp only [validateAppServingCSR, hs, hl, Bool.not_true, Bool.false_eq_true,
          if_false, List.length_eq_zero, gt_iff_lt, List.length_pos]
        constructor
        · intro h
          refine ⟨hs', hall, ?_, ?_, ?_⟩
          · by_contra hc
            push_neg at hc
            simp [hc] at h
          · by_contra hc
            by_cases h1 : req.DNSNames = [] ∧ req.IPAddresses = []
            · simp [h1] at h
            · simp [h1, hc] at h
          · by_contra hc
            by_cases h1 : req.DNSNames = [] ∧ req.IPAddresses = []
            · simp [h1] at h
            · by_cases h2 : req.EmailAddresses ≠ []
              · simp [h1, h2] at h
              · simp [h1, h2, hc] at h
        · rintro ⟨-, -, h1, h2, h3⟩
          have h1' : ¬ (req.DNSNames = [] ∧ req.IPAddresses = []) := by
            rintro ⟨a, b⟩
            rcases h1 with h1 | h1
            · exact h1 a
            · exact h1 b
          simp [h1', h2, h3]
    · have hs' : ¬ "server auth" ∈ usages := fun hm => hs ((container_eq_true_iff _ _).2 hm)
      simp [validateAppServingCSR, hs, hs']
  · simp [validateAppServingCSR, container]

end controller

namespace controller

theorem ite_true_eq_decide_or (p : Prop) [Decidable p] (b : Bool) :
    (if p then true else b) = (decide p || b) := by
  by_cases h : p <;> simp [h]

theorem foldl_approvalFlags (conds : List capi.CertificateSigningRequestCondition)
    (flags : Bool × Bool) :
    conds.foldl approvalFlags flags =
      (flags.1 || conds.any (fun c => c.Type_ = capi.CertificateApproved),
       flags.2 || conds.any (fun c => c.Type_ = capi.CertificateDenied)) := by
  induction conds generalizing flags with
  | nil => simp
  | cons c rest ih =>
    rw [List.foldl_cons, ih]
    simp only [approvalFlags, ite_true_eq_decide_or, List.any_cons]
    rw [Bool.or_comm (decide (c.Type_ = capi.CertificateApproved)) flags.1,
      Bool.or_comm (decide (c.Type_ = capi.CertificateDenied)) flags.2,
      Bool.or_assoc, Bool.or_assoc]

theorem isCertificateRequestApproved_iff (csr : capi.CertificateSigningRequest) :
    isCertificateRequestApproved csr = true ↔
      (∃ c ∈ csr.Status.Conditions, c.Type_ = "Approved") ∧
      ¬ ∃ c ∈ csr.Status.Conditions, c.Type_ = "Denied" := by
  simp [isCertificateRequestApproved, foldl_approvalFlags, capi.CertificateApproved,
    capi.CertificateDenied]

theorem hasTrueConditionLoop_iff (conditionType : capi.RequestConditionType)
    (conds : List capi.CertificateSigningRequestCondition) :
    hasTrueConditionLoop conditionType conds = true ↔
      ∃ c ∈ conds, c.Type_ = conditionType := by
  induction conds with
  | nil => simp [hasTrueConditionLoop]
  | cons c rest ih =>
    by_cases h : c.Type_ = conditionType
    · simp [hasTrueConditionLoop, h]
    · simp [hasTrueConditionLoop, h, ih]

/-- C2: when the conditions of a CSR lack an Approved condition, or hold a Denied or a
Failed condition, or its signer name is not "cms.io/app-serving", `handler` returns nil
and makes no call at all (no parse, no status update); when all four hold, `handler`
goes on to parse the request. -/
theorem handler_gate (env : Env) (cc : CertificateController)
    (csr : capi.CertificateSigningRequest) :
    (¬ ((∃ c ∈ csr.Status.Conditions, c.Type_ = "Approved") ∧
        (¬ ∃ c ∈ csr.Status.Conditions, c.Type_ = "Denied") ∧
        (¬ ∃ c ∈ csr.Status.Conditions, c.Type_ = "Failed") ∧
        csr.Spec.SignerName = "cms.io/app-serving") →
      handler env cc csr = (.ok (), [])) ∧
    (((∃ c ∈ csr.Status.Conditions, c.Type_ = "Approved") ∧
        (¬ ∃ c ∈ csr.Status.Conditions, c.Type_ = "Denied") ∧
        (¬ ∃ c ∈ csr.Status.Conditions, c.Type_ = "Failed") ∧
        csr.Spec.SignerName = "cms.io/app-serving") →
      (handler env cc csr).2.head? = some (.parseCSR csr.Spec.Request)) := by
  have hA := isCertificateRequestApproved_iff csr
  have hF : hasTrueCondition csr capi.CertificateFailed = true ↔
      ∃ c ∈ csr.Status.Conditions, c.Type_ = "Failed" := by
    simpa [hasTrueCondition, capi.CertificateFailed] using
      hasTrueConditionLoop_iff "Failed" csr.Status.Conditions
  constructor
  · intro hgate
    by_cases h1 : isCertificateRequestApproved csr = true
    · by_cases h2 : hasTrueCondition csr capi.CertificateFailed = true
      · simp [handler, h1, h2]
      · by_cases h3 : csr.Spec.SignerName = signerName
        · exact absurd ⟨(hA.1 h1).1, (hA.1 h1).2, fun h => h2 (hF.2 h), h3⟩ hgate
        · simp [handler, h1, h2, h3]
    · simp [handler, h1]
  · rintro ⟨ha, hd, hf, hs⟩
    have h1 : isCertificateRequestApproved csr = true := hA.2 ⟨ha, hd⟩
    have h2 : ¬ hasTrueCondition csr capi.CertificateFailed = true := fun h => hf (hF.1 h)
    have h3 : csr.Spec.SignerName = signerName := hs
    simp only [handler, h1, h2, h3]
    simp only [Bool.not_true, Bool.or_self, Bool.false_eq_true, if_false, ne_eq,
      not_true_eq_false]
    cases parseCSR env csr.Spec.Request with
    | error err => rfl
    | ok req =>
      simp only []
      cases env.checkSignature req with
      | some err => rfl
      | none =>
        simp only []
        cases validateAppServingCSR req csr.Spec.Usages with
        | some err => rfl
        | none =>
          simp only []
          cases cc.signer.Sign env req csr.Spec.Usages csr.Spec.ExpirationSeconds with
          | panic msg => rfl
          | err e => rfl
          | ok certificate =>
            simp only []
            split <;> rfl

end controller

namespace controller

/-- C2, at an approved request addressed to another signer. -/
theorem handler_gate_witness :
    handler Example.env Example.loadedController Example.foreignCSR = (.ok (), []) :=
  (handler_gate Example.env Example.loadedController Example.foreignCSR).1
    (by decide)

end controller

/-! ## Properties of `keyUsagesFromStrings` -/

namespace signer

theorem keyUsageDict_ne_none_mem (u : capi.KeyUsage) (h : keyUsageDict u ≠ none) :
    u ∈ [capi.UsageSigning, capi.UsageDigitalSignature, capi.UsageContentCommitment,
      capi.UsageKeyEncipherment, capi.UsageKeyAgreement, capi.UsageDataEncipherment,
      capi.UsageCertSign, capi.UsageCRLSign, capi.UsageEncipherOnly,
      capi.UsageDecipherOnly] := by
  by_contra hm
  simp only [List.mem_cons, List.mem_singleton, not_or, List.not_mem_nil, or_false] at hm
  obtain ⟨a1, a2, a3, a4, a5, a6, a7, a8, a9, a10⟩ := hm
  apply h
  rw [keyUsageDict, if_neg a1, if_neg a2, if_neg a3, if_neg a4, if_neg a5, if_neg a6,
    if_neg a7, if_neg a8, if_neg a9, if_neg a10]

theorem extKeyUsageDict_some_keyUsageDict_none (u : capi.KeyUsage) (e : Nat)
    (h : extKeyUsageDict u = some e) : keyUsageDict u = none := by
  by_contra hk
  have hm := keyUsageDict_ne_none_mem u hk
  simp only [List.mem_cons, List.mem_singleton, List.not_mem_nil, or_false] at hm
  have hn : extKeyUsageDict u = none := by
    rcases hm with rfl | rfl | rfl | rfl | rfl | rfl | rfl | rfl | rfl | rfl <;> decide
  rw [hn] at h
  exact Option.noConfusion h

theorem usageStep_unrecognized (acc : UsageAcc) (u : capi.KeyUsage) :
    (usageStep acc u).unrecognized =
      acc.unrecognized ++
        (if keyUsageDict u = none ∧ extKeyUsageDict u = none then [u] else []) := by
  unfold usageStep
  cases hk : keyUsageDict u with
  | some v => simp
  | none =>
    cases he : extKeyUsageDict u with
    | some v => simp
    | none => simp

theorem usageStep_keyUsage (acc : UsageAcc) (u : capi.KeyUsage) :
    (usageStep acc u).keyUsage = acc.keyUsage ||| (keyUsageDict u).getD 0 := by
  unfold usageStep
  cases hk : keyUsageDict u with
  | some v => simp
  | none =>
    cases he : extKeyUsageDict u with
    | some v => simp
    | none => simp

theorem usageStep_mem_ext (acc : UsageAcc) (u : capi.KeyUsage) (e : Nat) :
    e ∈ (usageStep acc u).extKeyUsages ↔
      e ∈ acc.extKeyUsages ∨ (keyUsageDict u = none ∧ extKeyUsageDict u = some e) := by
  unfold usageStep
  cases hk : keyUsageDict u with
  | some v => simp
  | none =>
    cases he : extKeyUsageDict u with
    | none => simp
    | some v =>
      by_cases hm : v ∈ acc.extKeyUsages
      · simp only [hm, if_true, true_and, Option.some.injEq]
        constructor
        · exact Or.inl
        · rintro (h | h)
          · exact h
          · exact h ▸ hm
      · simp only [hm, if_false, List.mem_cons, true_and, Option.some.injEq]
        constructor
        · rintro (h | h)
          · exact Or.inr h.symm
          · exact Or.inl h
        · rintro (h | h)
          · exact Or.inr h
          · exact Or.inl h.symm

theorem usageStep_nodup (acc : UsageAcc) (u : capi.KeyUsage) (h : acc.extKeyUsages.Nodup) :
    (usageStep acc u).extKeyUsages.Nodup := by
  unfold usageStep
  cases hk : keyUsageDict u with
  | some v => simpa using h
  | none =>
    cases he : extKeyUsageDict u with
    | none => simpa using h
    | some v =>
      by_cases hm : v ∈ acc.extKeyUsages
      · simpa [hm] using h
      · simpa [hm] using h

theorem foldl_usageStep_unrecognized (usages : List capi.KeyUsage) (acc : UsageAcc) :
    (usages.foldl usageStep acc).unrecognized =
      acc.unrecognized ++
        usages.filter (fun u => keyUsageDict u = none ∧ extKeyUsageDict u = none) := by
  induction usages generalizing acc with
  | nil => simp
  | cons u rest ih =>
    rw [List.foldl_cons, ih, usageStep_unrecognized]
    by_cases h : keyUsageDict u = none ∧ extKeyUsageDict u = none
    · simp [List.filter_cons, h]
    · simp [List.filter_cons, h]

theorem foldl_usageStep_keyUsage (usages : List capi.KeyUsage) (acc : UsageAcc) :
    (usages.foldl usageStep acc).keyUsage =
      (usages.filterMap keyUsageDict).foldl (fun a b => a ||| b) acc.keyUsage := by
  induction usages generalizing acc with
  | nil => simp
  | cons u rest ih =>
    rw [List.foldl_cons, ih, usageStep_keyUsage]
    cases hk : keyUsageDict u with
    | some v => simp [List.filterMap_cons, hk]
    | none => simp [List.filterMap_cons, hk]

theorem foldl_or_testBit (vals : List Nat) (init i : Nat) :
    (vals.foldl (fun a b => a ||| b) init).testBit i = true ↔
      init.testBit i = true ∨ ∃ v ∈ vals, v.testBit i = true := by
  induction vals generalizing init with
  | nil => simp
  | cons v rest ih =>
    rw [List.foldl_cons, ih, Nat.testBit_or]
    simp only [Bool.or_eq_true, List.mem_cons, exists_eq_or_imp]
    tauto

theorem foldl_usageStep_mem_ext (usages : List capi.KeyUsage) (acc : UsageAcc) (e : Nat) :
    e ∈ (usages.foldl usageStep acc).extKeyUsages ↔
      e ∈ acc.extKeyUsages ∨ ∃ u ∈ usages, extKeyUsageDict u = some e := by
  induction usages generalizing acc with
  | nil => simp
  | cons u rest ih =>
    rw [List.foldl_cons, ih, usageStep_mem_ext]
    simp only [List.mem_cons, exists_eq_or_imp]
    constructor
    · rintro ((h | ⟨_, h⟩) | h)
      · exact Or.inl h
      · exact Or.inr (Or.inl h)
      · exact Or.inr (Or.inr h)
    · rintro (h | h | h)
      · exact Or.inl (Or.inl h)
      · exact Or.inl (Or.inr ⟨extKeyUsageDict_some_keyUsageDict_none u e h, h⟩)
      · exact Or.inr h

theorem foldl_usageStep_nodup (usages : List capi.KeyUsage) (acc : UsageAcc)
    (h : acc.extKeyUsages.Nodup) : (usages.foldl usageStep acc).extKeyUsages.Nodup := by
  induction usages generalizing acc with
  | nil => simpa using h
  | cons u rest ih =>
    rw [List.foldl_cons]
    exact ih _ (usageStep_nodup acc u h)

theorem sortExtKeyUsage_sorted (order : MapOrder) (keys : List Nat) (h : keys.Nodup) :
    (sortExtKeyUsage (order.range keys)).Sorted (fun a b => a < b) := by
  have hs : (sortExtKeyUsage (order.range keys)).Sorted (fun a b => a ≤ b) :=
    List.sorted_insertionSort _ _
  have hp : (sortExtKeyUsage (order.range keys)).Perm keys :=
    (List.perm_insertionSort _ _).trans (order.perm keys)
  exact hs.lt_of_le (hp.nodup_iff.2 h)

theorem mem_sortExtKeyUsage (order : MapOrder) (keys : List Nat) (e : Nat) :
    e ∈ sortExtKeyUsage (order.range keys) ↔ e ∈ keys :=
  ((List.perm_insertionSort _ _).trans (order.perm keys)).mem_iff

/-- The value `keyUsagesFromStrings` returns, in closed form. -/
theorem keyUsagesFromStrings_eq (order : MapOrder) (usages : List capi.KeyUsage) :
    keyUsagesFromStrings order usages =
      if usages.filter (fun u => keyUsageDict u = none ∧ extKeyUsageDict u = none) = [] then
        .ok ((usages.filterMap keyUsageDict).foldl (fun a b => a ||| b) 0,
          sortExtKeyUsage (order.range
            (usages.foldl usageStep
              { keyUsage := 0, extKeyUsages := [], unrecognized := [] }).extKeyUsages))
      else
        .error (.errorf "unrecognized usage values: %q"
          (usages.filter (fun u => keyUsageDict u = none ∧ extKeyUsageDict u = none))) := by
  unfold keyUsagesFromStrings
  simp only [foldl_usageStep_unrecognized, foldl_usageStep_keyUsage, List.nil_append]
  by_cases h : usages.filter (fun u => keyUsageDict u = none ∧ extKeyUsageDict u = none) = []
  · rw [if_pos h, if_neg]
    rw [h]
    exact Nat.lt_irrefl 0
  · rw [if_neg h, if_pos]
    exact List.length_pos.2 h

theorem unrecognized_filter_eq_nil_iff (usages : List capi.KeyUsage) :
    usages.filter (fun u => keyUsageDict u = none ∧ extKeyUsageDict u = none) = [] ↔
      ∀ u ∈ usages, keyUsageDict u ≠ none ∨ extKeyUsageDict u ≠ none := by
  simp only [List.filter_eq_nil_iff, decide_eq_true_eq, not_and_or, ne_eq]

/-- Recognized usages make `keyUsagesFromStrings` succeed. -/
theorem keyUsagesFromStrings_ok (order : MapOrder) (usages : List capi.KeyUsage)
    (h : ∀ u ∈ usages, keyUsageDict u ≠ none ∨ extKeyUsageDict u ≠ none) :
    ∃ r, keyUsagesFromStrings order usages = .ok r := by
  rw [keyUsagesFromStrings_eq, if_pos ((unrecognized_filter_eq_nil_iff usages).2 h)]
  exact ⟨_, rfl⟩

end signer

namespace signer

theorem foldl_usageStep_mem_ext_init (usages : List capi.KeyUsage) (e : Nat) :
    e ∈ (usages.foldl usageStep
        { keyUsage := 0, extKeyUsages := [], unrecognized := [] }).extKeyUsages ↔
      ∃ u ∈ usages, extKeyUsageDict u = some e := by
  rw [foldl_usageStep_mem_ext]
  simp

/-- C6: `keyUsagesFromStrings` returns an error exactly when some listed usage is in
neither `keyUsageDict` nor `extKeyUsageDict`. When it succeeds, the key-usage value is
the bitwise OR of the `keyUsageDict` images of the listed usages (bit `i` is set exactly
when some image has it), the extended-key-usage list is strictly ascending and holds
exactly the `extKeyUsageDict` images of the listed usages, and any other list with the
same elements gives the same result, whatever the iteration order of the Go map. -/
theorem keyUsagesFromStrings_spec (order : MapOrder) (usages : List capi.KeyUsage) :
    ((∃ err, keyUsagesFromStrings order usages = .error err) ↔
      ∃ u ∈ usages, keyUsageDict u = none ∧ extKeyUsageDict u = none) ∧
    (∀ keyUsage extKeyUsages,
      keyUsagesFromStrings order usages = .ok (keyUsage, extKeyUsages) →
        keyUsage = (usages.filterMap keyUsageDict).foldl (fun a b => a ||| b) 0 ∧
        (∀ i, keyUsage.testBit i = true ↔
          ∃ u ∈ usages, ∃ v, keyUsageDict u = some v ∧ v.testBit i = true) ∧
        extKeyUsages.Sorted (fun a b => a < b) ∧
        (∀ e, e ∈ extKeyUsages ↔ ∃ u ∈ usages, extKeyUsageDict u = some e)) ∧
    (∀ (order2 : MapOrder) (usages2 : List capi.KeyUsage) (r : Nat × List Nat),
      (∀ u, u ∈ usages ↔ u ∈ usages2) →
      keyUsagesFromStrings order usages = .ok r →
      keyUsagesFromStrings order2 usages2 = .ok r) := by
  have hspec : ∀ (o : MapOrder) (us : List capi.KeyUsage) (k : Nat) (ext : List Nat),
      keyUsagesFromStrings o us = .ok (k, ext) →
        k = (us.filterMap keyUsageDict).foldl (fun a b => a ||| b) 0 ∧
        (∀ i, k.testBit i = true ↔
          ∃ u ∈ us, ∃ v, keyUsageDict u = some v ∧ v.testBit i = true) ∧
        ext.Sorted (fun a b => a < b) ∧
        (∀ e, e ∈ ext ↔ ∃ u ∈ us, extKeyUsageDict u = some e) := by
    intro o us k ext h
    rw [keyUsagesFromStrings_eq] at h
    split_ifs at h with hnil
    simp only [Except.ok.injEq, Prod.mk.injEq] at h
    obtain ⟨hk, hext⟩ := h
    refine ⟨hk.symm, ?_, ?_, ?_⟩
    · intro i
      rw [← hk, foldl_or_testBit]
      simp only [Nat.zero_testBit, Bool.false_eq_true, false_or, List.mem_filterMap]
      constructor
      · rintro ⟨v, ⟨u, hu, huv⟩, hv⟩
        exact ⟨u, hu, v, huv, hv⟩
      · rintro ⟨u, hu, v, huv, hv⟩
        exact ⟨v, ⟨u, hu, huv⟩, hv⟩
    · rw [← hext]
      exact sortExtKeyUsage_sorted o _ (foldl_usageStep_nodup us _ List.nodup_nil)
    · intro e
      rw [← hext, mem_sortExtKeyUsage, foldl_usageStep_mem_ext_init]
  refine ⟨?_, hspec order usages, ?_⟩
  · rw [keyUsagesFromStrings_eq]
    by_cases hnil :
        usages.filter (fun u => keyUsageDict u = none ∧ extKeyUsageDict u = none) = []
    · rw [if_pos hnil]
      constructor
      · rintro ⟨err, herr⟩
        exact Except.noConfusion herr
      · rintro ⟨u, hu, hk, he⟩
        rcases (unrecognized_filter_eq_nil_iff usages).1 hnil u hu with h | h
        · exact absurd hk h
        · exact absurd he h
    · rw [if_neg hnil]
      constructor
      · intro _
        by_contra hc
        apply hnil
        rw [unrecognized_filter_eq_nil_iff]
        intro u hu
        by_contra hcc
        push_neg at hcc
        exact hc ⟨u, hu, hcc.1, hcc.2⟩
      · intro _
        exact ⟨_, rfl⟩
  · intro order2 usages2 r hmem hr
    obtain ⟨k, ext⟩ := r
    have hrec : ∀ u ∈ usages2, keyUsageDict u ≠ none ∨ extKeyUsageDict u ≠ none := by
      intro u hu
      have h1 := hr
      rw [keyUsagesFromStrings_eq] at h1
      split_ifs at h1 with hnil
      exact (unrecognized_filter_eq_nil_iff usages).1 hnil u ((hmem u).2 hu)
    obtain ⟨⟨k2, ext2⟩, hr2⟩ := keyUsagesFromStrings_ok order2 usages2 hrec
    obtain ⟨-, hb1, hs1, hm1⟩ := hspec order usages k ext hr
    obtain ⟨-, hb2, hs2, hm2⟩ := hspec order2 usages2 k2 ext2 hr2
    have hk : k2 = k := by
      apply Nat.eq_of_testBit_eq
      intro i
      have : k2.testBit i = true ↔ k.testBit i = true := by
        rw [hb1, hb2]
        constructor
        · rintro ⟨u, hu, rest⟩
          exact ⟨u, (hmem u).2 hu, rest⟩
        · rintro ⟨u, hu, rest⟩
          exact ⟨u, (hmem u).1 hu, rest⟩
      cases h2 : k2.testBit i <;> cases h1 : k.testBit i <;> simp_all
    have hext : ext2 = ext := by
      apply List.eq_of_perm_of_sorted ?_ hs2 hs1
      rw [List.perm_ext_iff_of_nodup hs2.nodup hs1.nodup]
      intro e
      rw [hm1, hm2]
      constructor
      · rintro ⟨u, hu, rest⟩
        exact ⟨u, (hmem u).2 hu, rest⟩
      · rintro ⟨u, hu, rest⟩
        exact ⟨u, (hmem u).1 hu, rest⟩
    rw [hr2, hk, hext]

/-- C6, at a concrete input: a list with a repeated and reordered usage. -/
theorem keyUsagesFromStrings_spec_witness :
    keyUsagesFromStrings ⟨id, fun _ => List.Perm.refl _⟩
        ["server auth", "key encipherment", "client auth", "server auth",
          "digital signature"] = .ok (5, [1, 2]) ∧
    keyUsagesFromStrings ⟨List.reverse, fun l => List.reverse_perm l⟩
        ["digital signature", "client auth", "key encipherment", "server auth"] =
      .ok (5, [1, 2]) :=
  ⟨by decide,
   (keyUsagesFromStrings_spec ⟨id, fun _ => List.Perm.refl _⟩
      ["server auth", "key encipherment", "client auth", "server auth",
        "digital signature"]).2.2 ⟨List.reverse, fun l => List.reverse_perm l⟩
      ["digital signature", "client auth", "key encipherment", "server auth"] (5, [1, 2])
      (by intro u; simp only [List.mem_cons, List.mem_singleton, List.not_mem_nil,
            or_false]; tauto)
      (by decide)⟩

end signer

/-! ## Properties of `duration` and `apply` -/

theorem wrapInt64_eq_self (x : Int) (h : isInt64 x) : wrapInt64 x = x := by
  unfold isInt64 at h
  unfold wrapInt64
  norm_num at h ⊢
  omega

namespace signer

theorem defaultCSRDuration_eq : defaultCSRDuration = 31536000000000000 := by
  decide

/-- C3: `duration(nil)` is 365 days, and for every `int32` number of seconds `s`
`duration(&s)` is `s` seconds clamped into [10 minutes, 365 days] (values in
nanoseconds); 60 seconds give 10 minutes and 315360000 seconds give 365 days. -/
theorem duration_clamp (cs : CustomerSigner) (s : Int) (hs : isInt32 s) :
    cs.duration none = 365 * 24 * 3600 * 1000000000 ∧
    cs.duration (some s) =
      min (max (s * 1000000000) (10 * 60 * 1000000000)) (365 * 24 * 3600 * 1000000000) ∧
    10 * 60 * 1000000000 ≤ cs.duration (some s) ∧
    cs.duration (some s) ≤ 365 * 24 * 3600 * 1000000000 ∧
    cs.duration (some 60) = 10 * 60 * 1000000000 ∧
    cs.duration (some 315360000) = 365 * 24 * 3600 * 1000000000 := by
  have hw : wrapInt64 (s * time.Second) = s * 1000000000 := by
    apply wrapInt64_eq_self
    unfold isInt32 at hs
    unfold isInt64 time.Second
    norm_num at hs ⊢
    omega
  have hmin : wrapInt64 (10 * time.Minute) = 600000000000 := by decide
  refine ⟨?_, ?_, ?_, ?_, ?_, ?_⟩
  · simp only [CustomerSigner.duration, defaultCSRDuration_eq]
    norm_num
  · simp only [CustomerSigner.duration, defaultCSRDuration_eq, hw, hmin]
    rw [min_def, max_def]
    split_ifs <;> omega
  · simp only [CustomerSigner.duration, defaultCSRDuration_eq, hw, hmin]
    split_ifs <;> omega
  · simp only [CustomerSigner.duration, defaultCSRDuration_eq, hw, hmin]
    split_ifs <;> omega
  · rfl
  · rfl

/-- C3, at the request of one hour. -/
theorem duration_clamp_witness :
    isInt32 3600 ∧
    (⟨[], [], none, none⟩ : CustomerSigner).duration (some 3600) =
      min (max (3600 * 1000000000) (10 * 60 * 1000000000))
        (365 * 24 * 3600 * 1000000000) :=
  ⟨by unfold isInt32; norm_num,
   (duration_clamp ⟨[], [], none, none⟩ 3600 (by unfold isInt32; norm_num)).2.1⟩

end signer

namespace signer

/-- The template and the error `apply` produces once the usages were translated. -/
theorem apply_of_ok (p : PermissiveSigningPolicy) (timeNow : Int) (order : MapOrder)
    (tmpl : x509.Certificate) (signerNotAfter : Int) (usage : Nat) (extUsages : List Nat)
    (h : keyUsagesFromStrings order p.Usages = .ok (usage, extUsages)) :
    (p.apply timeNow order tmpl signerNotAfter).1.NotBefore =
        p.now timeNow + wrapInt64 (-p.Backdate) ∧
    (p.apply timeNow order tmpl signerNotAfter).1.NotAfter =
        min signerNotAfter
          (p.now timeNow + if p.TTL < p.Short then p.TTL else wrapInt64 (p.TTL - p.Backdate)) ∧
    (p.apply timeNow order tmpl signerNotAfter).2 =
        if signerNotAfter ≤ p.now timeNow + wrapInt64 (-p.Backdate) then
          some (.errorf "the signer has expired: NotAfter=%v" [toString signerNotAfter])
        else if signerNotAfter ≤ p.now timeNow then
          some (.errorf "refusing to sign a certificate that expired in the past: NotAfter=%v"
            [toString signerNotAfter])
        else none := by
  unfold PermissiveSigningPolicy.apply
  simp only [h]
  by_cases hs : p.TTL < p.Short
  · simp only [hs, if_true]
    by_cases h1 : p.now timeNow + p.TTL < signerNotAfter
    · by_cases h2 : p.now timeNow + wrapInt64 (-p.Backdate) < signerNotAfter
      · by_cases h3 : p.now timeNow < signerNotAfter
        · simp [h1, h2, h3, not_le.2 h2, not_le.2 h3, min_eq_right (le_of_lt h1)]
        · simp [h1, h2, h3, not_le.2 h2, not_lt.1 h3, min_eq_right (le_of_lt h1)]
      · simp [h1, h2, not_lt.1 h2, min_eq_right (le_of_lt h1)]
    · by_cases h2 : p.now timeNow + wrapInt64 (-p.Backdate) < signerNotAfter
      · by_cases h3 : p.now timeNow < signerNotAfter
        · simp [h1, h2, h3, not_le.2 h2, not_le.2 h3, min_eq_left (not_lt.1 h1)]
        · simp [h1, h2, h3, not_le.2 h2, not_lt.1 h3, min_eq_left (not_lt.1 h1)]
      · simp [h1, h2, not_lt.1 h2, min_eq_left (not_lt.1 h1)]
  · simp only [hs, if_false]
    by_cases h1 : p.now timeNow + wrapInt64 (p.TTL - p.Backdate) < signerNotAfter
    · by_cases h2 : p.now timeNow + wrapInt64 (-p.Backdate) < signerNotAfter
      · by_cases h3 : p.now timeNow < signerNotAfter
        · simp [h1, h2, h3, not_le.2 h2, not_le.2 h3, min_eq_right (le_of_lt h1)]
        · simp [h1, h2, h3, not_le.2 h2, not_lt.1 h3, min_eq_right (le_of_lt h1)]
      · simp [h1, h2, not_lt.1 h2, min_eq_right (le_of_lt h1)]
    · by_cases h2 : p.now timeNow + wrapInt64 (-p.Backdate) < signerNotAfter
      · by_cases h3 : p.now timeNow < signerNotAfter
        · simp [h1, h2, h3, not_le.2 h2, not_le.2 h3, min_eq_left (not_lt.1 h1)]
        · simp [h1, h2, h3, not_le.2 h2, not_lt.1 h3, min_eq_left (not_lt.1 h1)]
      · simp [h1, h2, not_lt.1 h2, min_eq_left (not_lt.1 h1)]

end signer

namespace signer

/-- The durations `Sign` puts into its policy: whatever duration is requested, the TTL
lies in [10 minutes, 365 days], the backdate is 5 minutes and the short-lived
threshold 8 hours; all are non-negative `int64` values. -/
theorem sign_policy_durations (cs : CustomerSigner) (expirationSeconds : Option Int) :
    (600000000000 ≤ cs.duration expirationSeconds ∧
      cs.duration expirationSeconds ≤ 31536000000000000) ∧
    (0 ≤ cs.duration expirationSeconds ∧ isInt64 (cs.duration expirationSeconds)) ∧
    wrapInt64 (5 * time.Minute) = 300000000000 ∧
    (0 ≤ wrapInt64 (5 * time.Minute) ∧ isInt64 (wrapInt64 (5 * time.Minute))) ∧
    wrapInt64 (8 * time.Hour) = 28800000000000 := by
  have hmin : wrapInt64 (10 * time.Minute) = 600000000000 := by decide
  have hb : 600000000000 ≤ cs.duration expirationSeconds ∧
      cs.duration expirationSeconds ≤ 31536000000000000 := by
    cases expirationSeconds with
    | none =>
      simp only [CustomerSigner.duration, defaultCSRDuration_eq]
      constructor <;> decide
    | some s =>
      simp only [CustomerSigner.duration, defaultCSRDuration_eq, hmin]
      split_ifs <;> constructor <;> omega
  have h5 : wrapInt64 (5 * time.Minute) = 300000000000 := by decide
  refine ⟨hb, ⟨by omega, ?_⟩, h5, ⟨?_, ?_⟩, by decide⟩
  · unfold isInt64
    norm_num
    constructor <;> omega
  · rw [h5]
    decide
  · rw [h5]
    unfold isInt64
    decide

/-- C4: for every signing policy with recognized usages whose `TTL` and `Backdate` are
non-negative `int64` durations (the durations of every policy `Sign` builds are, by
`sign_policy_durations`), every current time and every CA expiry, `apply` sets the
template's `NotBefore` to `now - Backdate` and its `NotAfter` to
`min(signerNotAfter, now + TTL)` when `TTL < Short`, and to
`min(signerNotAfter, now + TTL - Backdate)` when `TTL ≥ Short`; the template's
`NotAfter` never exceeds the CA expiry. -/
theorem apply_validity_window (p : PermissiveSigningPolicy) (timeNow : Int)
    (order : MapOrder) (tmpl : x509.Certificate) (signerNotAfter : Int)
    (hu : ∀ u ∈ p.Usages, keyUsageDict u ≠ none ∨ extKeyUsageDict u ≠ none)
    (hT : 0 ≤ p.TTL) (hT64 : isInt64 p.TTL)
    (hB : 0 ≤ p.Backdate) (hB64 : isInt64 p.Backdate) :
    (p.apply timeNow order tmpl signerNotAfter).1.NotBefore =
      p.now timeNow - p.Backdate ∧
    (p.TTL < p.Short →
      (p.apply timeNow order tmpl signerNotAfter).1.NotAfter =
        min signerNotAfter (p.now timeNow + p.TTL)) ∧
    (p.Short ≤ p.TTL →
      (p.apply timeNow order tmpl signerNotAfter).1.NotAfter =
        min signerNotAfter (p.now timeNow + p.TTL - p.Backdate)) ∧
    (p.apply timeNow order tmpl signerNotAfter).1.NotAfter ≤ signerNotAfter := by
  obtain ⟨⟨usage, extUsages⟩, hok⟩ := keyUsagesFromStrings_ok order p.Usages hu
  obtain ⟨hnb, hna, -⟩ := apply_of_ok p timeNow order tmpl signerNotAfter usage extUsages hok
  have hneg : wrapInt64 (-p.Backdate) = -p.Backdate := by
    apply wrapInt64_eq_self
    unfold isInt64 at hB64 ⊢
    constructor <;> omega
  have hsub : wrapInt64 (p.TTL - p.Backdate) = p.TTL - p.Backdate := by
    apply wrapInt64_eq_self
    unfold isInt64 at hT64 hB64 ⊢
    constructor <;> omega
  refine ⟨?_, ?_, ?_, ?_⟩
  · rw [hnb, hneg]
    ring
  · intro hs
    rw [hna, if_pos hs]
  · intro hs
    rw [hna, if_neg (not_lt.2 hs), hsub]
    congr 1
    ring
  · rw [hna]
    exact min_le_left _ _

/-- C4, at the two policies `Sign` builds for a one-hour request and for no requested
duration, with a CA that expires thirty minutes from now and one that expires in ten
years: the short-lived certificate ends at the CA expiry, the long-lived one 5 minutes
before `now + 365 days`. -/
theorem apply_validity_window_witness :
    (Example.servingPolicy.TTL = Example.loadedController.signer.duration (some 3600) ∧
      Example.defaultPolicy.TTL = Example.loadedController.signer.duration none ∧
      Example.servingPolicy.Backdate = wrapInt64 (5 * time.Minute) ∧
      Example.servingPolicy.Short = wrapInt64 (8 * time.Hour)) ∧
    (Example.servingPolicy.apply Example.now2026 Example.insertionOrder Example.template
      (Example.now2026 + 1800000000000)).1.NotBefore = Example.now2026 - 300000000000 ∧
    (Example.servingPolicy.apply Example.now2026 Example.insertionOrder Example.template
      (Example.now2026 + 1800000000000)).1.NotAfter =
        min (Example.now2026 + 1800000000000) (Example.now2026 + 3600000000000) ∧
    (Example.defaultPolicy.apply Example.now2026 Example.insertionOrder Example.template
      Example.caCertificate.NotAfter).1.NotAfter =
        min Example.caCertificate.NotAfter
          (Example.now2026 + 31536000000000000 - 300000000000) ∧
    (Example.defaultPolicy.apply Example.now2026 Example.insertionOrder Example.template
      Example.caCertificate.NotAfter).1.NotAfter =
        Example.now2026 + 31535700000000000 :=
  ⟨by decide,
   (apply_validity_window Example.servingPolicy Example.now2026 Example.insertionOrder
      Example.template (Example.now2026 + 1800000000000) (by decide) (by decide)
      (by unfold isInt64; decide) (by decide) (by unfold isInt64; decide)).1,
   (apply_validity_window Example.servingPolicy Example.now2026 Example.insertionOrder
      Example.template (Example.now2026 + 1800000000000) (by decide) (by decide)
      (by unfold isInt64; decide) (by decide) (by unfold isInt64; decide)).2.1 (by decide),
   (apply_validity_window Example.defaultPolicy Example.now2026 Example.insertionOrder
      Example.template Example.caCertificate.NotAfter (by decide) (by decide)
      (by unfold isInt64; decide) (by decide) (by unfold isInt64; decide)).2.2.1
      (by decide),
   by decide⟩

/-- C5: for a policy with `Backdate ≥ 0` and recognized usages, `apply` returns an
error exactly when `now` is at or past the CA expiry; the error "the signer has
expired" is returned exactly when `signerNotAfter ≤ now - Backdate`, and the error
"refusing to sign a certificate that expired in the past" exactly when
`now - Backdate < signerNotAfter ≤ now`. -/
theorem apply_error_iff (p : PermissiveSigningPolicy) (timeNow : Int)
    (order : MapOrder) (tmpl : x509.Certificate) (signerNotAfter : Int)
    (hB : 0 ≤ p.Backdate) (hB64 : isInt64 p.Backdate)
    (hu : ∀ u ∈ p.Usages, keyUsageDict u ≠ none ∨ extKeyUsageDict u ≠ none) :
    ((p.apply timeNow order tmpl signerNotAfter).2 ≠ none ↔
      signerNotAfter ≤ p.now timeNow) ∧
    ((p.apply timeNow order tmpl signerNotAfter).2 =
        some (.errorf "the signer has expired: NotAfter=%v" [toString signerNotAfter]) ↔
      signerNotAfter ≤ p.now timeNow - p.Backdate) ∧
    ((p.apply timeNow order tmpl signerNotAfter).2 =
        some (.errorf "refusing to sign a certificate that expired in the past: NotAfter=%v"
          [toString signerNotAfter]) ↔
      (p.now timeNow - p.Backdate < signerNotAfter ∧ signerNotAfter ≤ p.now timeNow)) := by
  obtain ⟨⟨usage, extUsages⟩, hok⟩ := keyUsagesFromStrings_ok order p.Usages hu
  obtain ⟨-, -, herr⟩ := apply_of_ok p timeNow order tmpl signerNotAfter usage extUsages hok
  have hw : wrapInt64 (-p.Backdate) = -p.Backdate := by
    apply wrapInt64_eq_self
    unfold isInt64 at hB64 ⊢
    constructor <;> omega
  rw [herr, hw]
  have hfmt : ("the signer has expired: NotAfter=%v" : String) ≠
      "refusing to sign a certificate that expired in the past: NotAfter=%v" := by decide
  by_cases h1 : signerNotAfter ≤ p.now timeNow + -p.Backdate
  · have h2 : signerNotAfter ≤ p.now timeNow := by omega
    have h3 : signerNotAfter ≤ p.now timeNow - p.Backdate := by omega
    have h4 : ¬ p.now timeNow - p.Backdate < signerNotAfter := by omega
    simp [h1, h2, h3, h4, hfmt]
  · have h3 : ¬ signerNotAfter ≤ p.now timeNow - p.Backdate := by omega
    have h4 : p.now timeNow - p.Backdate < signerNotAfter := by omega
    by_cases h2 : signerNotAfter ≤ p.now timeNow
    · simp [h1, h2, h3, h4, hfmt.symm]
    · simp [h1, h2, h3, h4]

/-- C5, at the policy `Sign` builds and a CA that expired two minutes ago: inside the
backdate window, so the second error is returned. -/
theorem apply_error_iff_witness :
    0 ≤ Example.servingPolicy.Backdate ∧
    (Example.servingPolicy.apply Example.now2026 Example.insertionOrder Example.template
      (Example.now2026 - 120000000000)).2 =
        some (.errorf "refusing to sign a certificate that expired in the past: NotAfter=%v"
          [toString (Example.now2026 - 120000000000)]) :=
  ⟨by decide,
   ((apply_error_iff Example.servingPolicy Example.now2026 Example.insertionOrder
      Example.template (Example.now2026 - 120000000000) (by decide)
      (by unfold isInt64; decide) (by decide)).2.2).2 (by decide)⟩

end signer

/-! ## Properties of the reconciliation path -/

namespace controller

/-- C7 (as amended): `parseCSR` returns its parse error for every input in which
`pem.Decode` finds no block, and for every input whose first block has a type other
than "CERTIFICATE REQUEST"; when the first block has that type, the result is that of
`x509.ParseCertificateRequest` on the bytes of the block, whatever follows the block. -/
theorem parseCSR_first_block (env : Env) (pemBytes : Bytes) :
    ((env.pemDecode pemBytes).1 = none →
      parseCSR env pemBytes =
        .error (.errorf "PEM block type must be CERTIFICATE REQUEST" [])) ∧
    (∀ block, (env.pemDecode pemBytes).1 = some block →
      block.Type_ ≠ "CERTIFICATE REQUEST" →
      parseCSR env pemBytes =
        .error (.errorf "PEM block type must be CERTIFICATE REQUEST" [])) ∧
    (∀ block, (env.pemDecode pemBytes).1 = some block →
      block.Type_ = "CERTIFICATE REQUEST" →
      parseCSR env pemBytes = env.parseCertificateRequest block.Bytes) := by
  refine ⟨?_, ?_, ?_⟩
  · intro h
    simp [parseCSR, h]
  · intro block h ht
    simp [parseCSR, h, ht]
  · intro block h ht
    simp only [parseCSR, h, ht, ne_eq, not_true_eq_false, if_false]
    cases env.parseCertificateRequest block.Bytes <;> rfl

/-- C7 (as amended), at an input holding a "CERTIFICATE" block and at an input holding
one "CERTIFICATE REQUEST" block. -/
theorem parseCSR_first_block_witness :
    parseCSR Example.env [2] =
      .error (.errorf "PEM block type must be CERTIFICATE REQUEST" []) ∧
    parseCSR Example.env [1] = .ok Example.request :=
  ⟨(parseCSR_first_block Example.env [2]).2.1
      { Type_ := "CERTIFICATE", Bytes := [48] } (by decide) (by decide),
   by decide⟩

/-- C7 fails as stated: on an input made of two "CERTIFICATE REQUEST" blocks,
`pem.Decode` returns the first block and a non-empty rest, and `parseCSR` returns the
parsed request, not an error. -/
theorem parseCSR_trailing_data_counterexample :
    (Example.env.pemDecode [1, 1]).1 =
      some { Type_ := "CERTIFICATE REQUEST", Bytes := [48] } ∧
    (Example.env.pemDecode [1, 1]).2 = [1] ∧
    (Example.env.pemDecode [1, 1]).2 ≠ [] ∧
    (Example.env.pemDecode (Example.env.pemDecode [1, 1]).2).1 ≠ none ∧
    parseCSR Example.env [1, 1] = .ok Example.request := by
  refine ⟨by decide, by decide, by decide, by decide, by decide⟩

/-- No call `handler` makes is a call on the work queue. -/
theorem handler_no_queue_call (env : Env) (cc : CertificateController)
    (csr : capi.CertificateSigningRequest) :
    (handler env cc csr).2.filter Event.isQueueCall = [] := by
  unfold handler
  split_ifs
  · rfl
  · rfl
  · cases parseCSR env csr.Spec.Request with
    | error err => rfl
    | ok req =>
      simp only []
      cases env.checkSignature req with
      | some err => rfl
      | none =>
        simp only []
        cases validateAppServingCSR req csr.Spec.Usages with
        | some err => rfl
        | none =>
          simp only []
          cases cc.signer.Sign env req csr.Spec.Usages csr.Spec.ExpirationSeconds with
          | panic msg => rfl
          | err e => rfl
          | ok certificate =>
            simp only []
            split <;> rfl

/-- No call `sync` makes is a call on the work queue. -/
theorem sync_no_queue_call (env : Env) (cc : CertificateController) (key : String) :
    (sync env cc key).2.filter Event.isQueueCall = [] := by
  unfold sync
  cases env.listerGet key with
  | error err =>
    simp only []
    split_ifs <;> rfl
  | ok csr =>
    simp only []
    split_ifs
    · rfl
    · simp only [List.filter_cons, Event.isQueueCall, Bool.false_eq_true, if_false]
      exact handler_no_queue_call env cc csr

/-- C8: for a key whose cached CSR already carries a certificate, and for a key the
cache does not hold, `sync` returns nil after the cache lookup alone: `handler` is not
entered and nothing is written to the store. -/
theorem sync_noop (env : Env) (cc : CertificateController) (key : String) :
    (∀ csr, env.listerGet key = .ok csr → csr.Status.Certificate ≠ [] →
      sync env cc key = (.ok (), [.listerGet key])) ∧
    (∀ err, env.listerGet key = .error err → errors.IsNotFound err = true →
      sync env cc key = (.ok (), [.listerGet key])) := by
  constructor
  · intro csr h hc
    have hlen : csr.Status.Certificate.length > 0 := List.length_pos.2 hc
    simp [sync, h, hlen]
  · intro err h hnf
    simp [sync, h, hnf]

/-- C8, at the key of an issued CSR and at a key missing from the cache. -/
theorem sync_noop_witness :
    sync Example.env Example.loadedController "issued" = (.ok (), [.listerGet "issued"]) ∧
    sync Example.env Example.loadedController "gone" = (.ok (), [.listerGet "gone"]) ∧
    (sync Example.env Example.loadedController "issued").2.filter Event.isStoreWrite = [] :=
  ⟨(sync_noop Example.env Example.loadedController "issued").1 Example.issuedCSR
      (by decide) (by decide),
   (sync_noop Example.env Example.loadedController "gone").2 (.status "NotFound")
      (by decide) (by decide),
   by decide⟩

/-- C9: after a key is dequeued, the queue calls of `processNextItem` are
`AddAfter(key, 1s)` then `Done(key)` when `sync` returns a conflict error,
`AddRateLimited(key)` then `Done(key)` when it returns any other error, and
`Forget(key)` then `Done(key)` when it returns nil, and `processNextItem` returns true;
`processNextItem` returns false when the queue reports shutdown, and only then. -/
theorem processNextItem_queue_calls (env : Env) (cc : CertificateController)
    (key : String) :
    (∀ err, (sync env cc key).1 = .err err → errors.IsConflict err = true →
      (processNextItem env cc (key, false)).1 = .ok true ∧
      (processNextItem env cc (key, false)).2.filter Event.isQueueCall =
        [.queueAddAfter key 1000000000, .queueDone key]) ∧
    (∀ err, (sync env cc key).1 = .err err → errors.IsConflict err = false →
      (processNextItem env cc (key, false)).1 = .ok true ∧
      (processNextItem env cc (key, false)).2.filter Event.isQueueCall =
        [.queueAddRateLimited key, .queueDone key]) ∧
    ((sync env cc key).1 = .ok () →
      (processNextItem env cc (key, false)).1 = .ok true ∧
      (processNextItem env cc (key, false)).2.filter Event.isQueueCall =
        [.queueForget key, .queueDone key]) ∧
    processNextItem env cc (key, true) = (.ok false, []) ∧
    (∀ quit, (processNextItem env cc (key, quit)).1 = .ok false → quit = true) := by
  have hq := sync_no_queue_call env cc key
  refine ⟨?_, ?_, ?_, ?_, ?_⟩
  · intro err h hc
    simp only [processNextItem, Bool.false_eq_true, if_false, h, hc, if_true,
      List.filter_append, hq, List.nil_append]
    exact ⟨trivial, rfl⟩
  · intro err h hc
    simp only [processNextItem, Bool.false_eq_true, if_false, h, hc,
      List.filter_append, hq, List.nil_append]
    exact ⟨trivial, rfl⟩
  · intro h
    simp only [processNextItem, Bool.false_eq_true, if_false, h,
      List.filter_append, hq, List.nil_append]
    exact ⟨trivial, rfl⟩
  · simp [processNextItem]
  · intro quit h
    cases quit with
    | true => rfl
    | false =>
      exfalso
      simp only [processNextItem, Bool.false_eq_true, if_false] at h
      cases hs : (sync env cc key).1 with
      | ok u =>
        rw [hs] at h
        simp at h
      | err e =>
        rw [hs] at h
        by_cases hc : errors.IsConflict e = true
        · simp [hc] at h
        · simp [hc] at h
      | panic msg =>
        rw [hs] at h
        simp at h

/-- C9, at a write answered with a version conflict and at a write that succeeds. -/
theorem processNextItem_queue_calls_witness :
    (sync Example.conflictEnv Example.loadedController "pending").1 =
      .err (.status "Conflict") ∧
    (processNextItem Example.conflictEnv Example.loadedController ("pending", false)).2.filter
        Event.isQueueCall = [.queueAddAfter "pending" 1000000000, .queueDone "pending"] ∧
    (processNextItem Example.env Example.loadedController ("pending", false)).2.filter
        Event.isQueueCall = [.queueForget "pending", .queueDone "pending"] :=
  ⟨by decide,
   ((processNextItem_queue_calls Example.conflictEnv Example.loadedController "pending").1
      (.status "Conflict") (by decide) (by decide)).2,
   ((processNextItem_queue_calls Example.env Example.loadedController "pending").2.2.1
      (by decide)).2⟩

end controller

namespace controller

theorem setClient_signer (env : Env) (cc : CertificateController) (kubeconfig : String) :
    (setClient env cc kubeconfig).1.signer = cc.signer := by
  unfold setClient
  simp only []
  generalize (if kubeconfig = "" then env.inClusterConfig
    else env.buildConfigFromFlags kubeconfig) = config
  cases config with
  | error err => rfl
  | ok config =>
    simp only []
    cases env.newForConfig config <;> rfl

/-- C10 does not hold of the code: every controller `NewCertificateController` returns
without error has a signer with no CA certificate and no signing key (the constructor
never calls `NewCustomerSigner`), and on an approved CSR for this signer that parses,
verifies and passes validation, `handler` panics inside `Sign` on the nil CA
certificate as soon as a serial number was drawn. -/
theorem NewCertificateController_signer_unset (env : Env)
    (opts : options.CertificateControllerOptions) (cc : CertificateController)
    (h : NewCertificateController env opts = .ok cc) :
    cc.signer.certificate = none ∧ cc.signer.privateKey = none ∧
    (∀ csr req serial,
      isCertificateRequestApproved csr = true →
      hasTrueCondition csr capi.CertificateFailed = false →
      csr.Spec.SignerName = signerName →
      parseCSR env csr.Spec.Request = .ok req →
      env.checkSignature req = none →
      validateAppServingCSR req csr.Spec.Usages = none →
      env.randInt signer.serialNumberLimit = .ok serial →
      (handler env cc csr).1 = .panic "invalid memory address or nil pointer dereference") := by
  have hsig : cc.signer =
      { keyPem := [], certPem := [], certificate := none, privateKey := none } := by
    unfold NewCertificateController at h
    simp only [] at h
    have hs := setClient_signer env
      { client := none,
        signer := { keyPem := [], certPem := [], certificate := none, privateKey := none } }
      opts.KubeConfig
    split at h
    · exact Except.noConfusion h
    · rename_i cc2 heq
      simp only [Except.ok.injEq] at h
      rw [heq] at hs
      rw [← h]
      exact hs
  refine ⟨by rw [hsig], by rw [hsig], ?_⟩
  intro csr req serial h1 h2 h3 h4 h5 h6 h7
  simp only [handler, h1, h2, h3, h4, h5, h6, hsig, signer.CustomerSigner.Sign, h7,
    Bool.not_true, Bool.or_self, Bool.false_eq_true, if_false, ne_eq, not_true_eq_false]

/-- C10, evaluated: with options naming both CA files, `NewCustomerSigner` loads the
certificate and the key, `NewCertificateController` returns a controller that holds
neither, and that controller panics on the approved request `pendingCSR`. -/
theorem NewCertificateController_signer_unset_witness :
    signer.NewCustomerSigner Example.env Example.opts =
      .ok Example.loadedController.signer ∧
    NewCertificateController Example.env Example.opts =
      .ok { client := some "in-cluster",
            signer := { keyPem := [], certPem := [], certificate := none,
                        privateKey := none } } ∧
    (handler Example.env
        { client := some "in-cluster",
          signer := { keyPem := [], certPem := [], certificate := none,
                      privateKey := none } }
        Example.pendingCSR).1 =
      .panic "invalid memory address or nil pointer dereference" ∧
    (handler Example.env Example.loadedController Example.pendingCSR).1 = .ok () :=
  ⟨by decide, by decide,
   (NewCertificateController_signer_unset Example.env Example.opts
      { client := some "in-cluster",
        signer := { keyPem := [], certPem := [], certificate := none, privateKey := none } }
      (by decide)).2.2 Example.pendingCSR Example.request 7
      (by decide) (by decide) (by decide) (by decide) (by decide) (by decide) (by decide),
   by decide⟩

end controller

/-! ## Properties of the resync period -/

namespace controller

theorem roundTiesToEven_floor_or_succ (q : ℚ) :
    float64.roundTiesToEven q = ⌊q⌋ ∨ float64.roundTiesToEven q = ⌊q⌋ + 1 := by
  unfold float64.roundTiesToEven
  simp only []
  split_ifs <;> simp

theorem roundTiesToEven_succ_frac (q : ℚ)
    (h : float64.roundTiesToEven q = ⌊q⌋ + 1) : (1 : ℚ) / 2 ≤ q - ⌊q⌋ := by
  unfold float64.roundTiesToEven at h
  simp only [] at h
  split_ifs at h with h1 h2 h3
  · omega
  · exact le_of_lt h2
  · omega
  · exact not_lt.1 h1

/-- Rounding inside [2^52, 2^53 - 1/2) stays inside [2^52, 2^53). -/
theorem roundTiesToEven_bounds (q : ℚ) (hq0 : 4503599627370496 ≤ q)
    (hq1 : q < 9007199254740992 - 1 / 2) :
    4503599627370496 ≤ float64.roundTiesToEven q ∧
      float64.roundTiesToEven q < 9007199254740992 := by
  have hf0 : (4503599627370496 : Int) ≤ ⌊q⌋ := by
    rw [Int.le_floor]
    exact_mod_cast hq0
  have hfle : ((⌊q⌋ : Int) : ℚ) ≤ q := Int.floor_le q
  constructor
  · rcases roundTiesToEven_floor_or_succ q with h | h <;> omega
  · rcases roundTiesToEven_floor_or_succ q with h | h
    · have hlt : ((⌊q⌋ : Int) : ℚ) < ((9007199254740992 : Int) : ℚ) := by
        push_cast
        linarith
      have hlt2 : ⌊q⌋ < 9007199254740992 := by exact_mod_cast hlt
      omega
    · have hfrac := roundTiesToEven_succ_frac q h
      have hlt : ((⌊q⌋ : Int) : ℚ) < ((9007199254740991 : Int) : ℚ) := by
        push_cast
        linarith
      have hlt2 : ⌊q⌋ < 9007199254740991 := by exact_mod_cast hlt
      omega

/-- Rounding inside [2^53 - 1/2, 2^53) gives 2^53: above the midpoint by nearness, at
the midpoint because 2^53 - 1 is odd. -/
theorem roundTiesToEven_top (q : ℚ) (hq0 : 9007199254740992 - 1 / 2 ≤ q)
    (hq1 : q < 9007199254740992) :
    float64.roundTiesToEven q = 9007199254740992 := by
  have hf : ⌊q⌋ = 9007199254740991 := by
    rw [Int.floor_eq_iff]
    constructor
    · push_cast
      linarith
    · push_cast
      linarith
  unfold float64.roundTiesToEven
  simp only [hf]
  have h1 : ¬ (q - ((9007199254740991 : Int) : ℚ) < 1 / 2) := by
    push_cast
    intro h
    linarith
  have h3 : ¬ ((9007199254740991 : Int) % 2 = 0) := by decide
  rw [if_neg h1, if_neg h3]
  split_ifs <;> rfl

/-- Below `1 - 2^-53` the rounded sum stays below 2 and converts to 1. -/
theorem toInt64_addOne_of_lt (r : ℚ) (h0 : 0 ≤ r) (h1 : r < 1 - 1 / 2 ^ 53) :
    float64.toInt64 (float64.addOne r) = 1 := by
  have hq0 : (4503599627370496 : ℚ) ≤ (r + 1) * 2 ^ 52 := by
    norm_num
    linarith
  have hq1 : (r + 1) * 2 ^ 52 < 9007199254740992 - 1 / 2 := by
    norm_num at h1 ⊢
    linarith
  obtain ⟨hn0, hn1⟩ := roundTiesToEven_bounds _ hq0 hq1
  unfold float64.addOne
  generalize float64.roundTiesToEven ((r + 1) * 2 ^ 52) = n at hn0 hn1
  have hc0 : ((4503599627370496 : Int) : ℚ) ≤ (n : ℚ) := by exact_mod_cast hn0
  have hc1 : (n : ℚ) < ((9007199254740992 : Int) : ℚ) := by exact_mod_cast hn1
  push_cast at hc0 hc1
  have hx0 : (1 : ℚ) ≤ (n : ℚ) / 2 ^ 52 := by
    rw [le_div_iff₀ (by norm_num)]
    norm_num
    linarith
  have hx1 : (n : ℚ) / 2 ^ 52 < 2 := by
    rw [div_lt_iff₀ (by norm_num)]
    norm_num
    linarith
  unfold float64.toInt64
  rw [if_pos (by linarith), Int.floor_eq_iff]
  constructor
  · exact_mod_cast hx0
  · push_cast
    linarith

/-- From `1 - 2^-53` on the sum is rounded up to 2. -/
theorem toInt64_addOne_of_ge (r : ℚ) (h0 : 1 - 1 / 2 ^ 53 ≤ r) (h1 : r < 1) :
    float64.toInt64 (float64.addOne r) = 2 := by
  have hq0 : (9007199254740992 : ℚ) - 1 / 2 ≤ (r + 1) * 2 ^ 52 := by
    norm_num at h0 ⊢
    linarith
  have hq1 : (r + 1) * 2 ^ 52 < 9007199254740992 := by
    norm_num
    linarith
  unfold float64.addOne float64.toInt64
  rw [roundTiesToEven_top _ hq0 hq1]
  norm_num

/-- C11 does not hold of the code: for every draw `r` of `rand.Float64()`, a rational
in [0, 1), the computed resync period is 12 hours when `r < 1 - 2^-53` and 24 hours
otherwise, because `factor` is converted to an integer number of nanoseconds before
the multiplication; it lies in [12h, 24h], and for every draw other than 0 it differs
from 12 hours scaled by `1 + r`. -/
theorem resyncPeriod_truncates (r : ℚ) (h0 : 0 ≤ r) (h1 : r < 1) :
    resyncPeriod r =
      (if r < 1 - 1 / 2 ^ 53 then 43200000000000 else 86400000000000) ∧
    (43200000000000 ≤ resyncPeriod r ∧ resyncPeriod r ≤ 86400000000000) ∧
    (0 < r → (resyncPeriod r : ℚ) ≠ 43200000000000 * (1 + r)) := by
  have hlt : r < 1 - 1 / 2 ^ 53 → resyncPeriod r = 43200000000000 := by
    intro h
    unfold resyncPeriod
    simp only [toInt64_addOne_of_lt r h0 h]
    decide
  have hge : ¬ r < 1 - 1 / 2 ^ 53 → resyncPeriod r = 86400000000000 := by
    intro h
    unfold resyncPeriod
    simp only [toInt64_addOne_of_ge r (not_lt.1 h) h1]
    decide
  refine ⟨?_, ?_, ?_⟩
  · by_cases h : r < 1 - 1 / 2 ^ 53
    · rw [if_pos h]
      exact hlt h
    · rw [if_neg h]
      exact hge h
  · by_cases h : r < 1 - 1 / 2 ^ 53
    · rw [hlt h]
      decide
    · rw [hge h]
      decide
  · intro hpos hc
    by_cases h : r < 1 - 1 / 2 ^ 53
    · rw [hlt h] at hc
      push_cast at hc
      linarith
    · rw [hge h] at hc
      push_cast at hc
      linarith

/-- C11, evaluated at the draws 1/2 and 1/4: both give 12 hours, where the claim has 18
hours and 15 hours. -/
theorem resyncPeriod_truncates_witness :
    resyncPeriod (1 / 2) = 43200000000000 ∧
    resyncPeriod (1 / 4) = 43200000000000 ∧
    (resyncPeriod (1 / 2) : ℚ) ≠ 43200000000000 * (1 + 1 / 2) ∧
    (43200000000000 : ℚ) * (1 + 1 / 2) = 64800000000000 :=
  ⟨by
    have h := (resyncPeriod_truncates (1 / 2) (by norm_num) (by norm_num)).1
    rw [if_pos (by norm_num)] at h
    exact h,
   by
    have h := (resyncPeriod_truncates (1 / 4) (by norm_num) (by norm_num)).1
    rw [if_pos (by norm_num)] at h
    exact h,
   (resyncPeriod_truncates (1 / 2) (by norm_num) (by norm_num)).2.2 (by norm_num),
   by norm_num⟩

end controller
